import Mathlib

/-
  Verification of the typed document conversion layer and transport error
  handling of the go-apito-sdk client library (package goapitosdk).

  The Go source is shallowly embedded: JSON values that Go's encoding/json
  decodes into `interface\x7b\x7d` become the inductive `Json`; fallible Go
  functions returning `(T, error)` become `Except String T`; the caller-chosen
  generic target shape `T` of the typed operations becomes a `Codec` record
  holding the decode (json.Unmarshal into `T`) and encode (json.Marshal of
  `T`) behaviour of that shape.
-/

namespace Apito

/-- A decimal number as carried by a JSON document: `mantissa * 10 ^ exp10`.
Go decodes JSON numbers into `float64`; the model keeps the decimal form
exactly so that no floating-point rounding has to be modelled. -/
structure JNumber where
  mantissa : Int
  exp10 : Int
deriving DecidableEq

/-- The result of Go's `encoding/json` parse of a JSON document into
`interface\x7b\x7d`: null, bool, number, string, array, or string-keyed
object. Objects coming from `map[string]interface\x7b\x7d` have distinct
keys. -/
inductive Json where
  | null
  | bool (b : Bool)
  | num (n : JNumber)
  | str (s : String)
  | arr (elems : List Json)
  | obj (fields : List (String × Json))

/-- ASCII case folding of one character, as Go's field matching applies to
the ASCII json tags involved here. -/
def lowerChar (c : Char) : Char :=
  if 'A' ≤ c ∧ c ≤ 'Z' then Char.ofNat (c.toNat + 32) else c

/-- ASCII case folding of a key, used for Go's case-insensitive matching of
object keys against struct json tags. -/
def lowerStr (s : String) : String := String.mk (s.data.map lowerChar)

/-- Go map indexing `m[key]` on an object's field list: the value at the
first occurrence of `key`, if any. -/
def jlookup (fields : List (String × Json)) (key : String) : Option Json :=
  match fields with
  | [] => none
  | kv :: rest => if kv.1 = key then some kv.2 else jlookup rest key

/-- The value assigned to the struct field with json tag `tag` while Go
scans an object's entries: the first entry whose case-folded key matches
the tag (with distinct case-folded keys there is at most one). -/
def findLower (fields : List (String × Json)) (tag : String) : Option Json :=
  match fields with
  | [] => none
  | kv :: rest => if lowerStr kv.1 = tag then some kv.2 else findLower rest tag

/-- Modelled from the spec: `protobuff.MetaField`, the metadata block of a
Document (created-at, updated-at, status, revision number, revision
timestamp).  The struct lives in the external `gitlab.com/apito.io/buffers`
package; its shape is taken from spec §3 and from the fields selected by the
GraphQL queries in `client.go`. -/
structure MetaField where
  createdAt : String
  updatedAt : String
  status : String
  revision : Int
  revisionAt : String
deriving DecidableEq

/-- Modelled from the spec: `shared.DefaultDocumentStructure`, the raw
Document (spec §3).  The struct lives in the external
`gitlab.com/apito.io/buffers` package; its fields are taken from spec §3 and
from the fields the repository reads and selects in its queries: partition
key `_key`, untyped payload `data`, metadata pointer `meta`, identifier
`id`, expiration marker `expire_at` (a string timestamp), relation-document
id `relation_doc_id`, and type discriminator `type`. -/
structure DefaultDocumentStructure where
  key : String
  data : Json
  meta : Option MetaField
  id : String
  expireAt : String
  relationDocID : String
  type' : String

/-- `TypedDocumentStructure[T]` from `types.go`: the generic projection of a
Document whose payload is statically shaped as `τ`.  `TenantID` and
`TenantModel` exist on the Go struct but are never set by the conversion
routine, so they keep their zero values there. -/
structure TypedDocumentStructure (τ : Type) where
  key : String
  data : τ
  meta : Option MetaField
  id : String
  expireAt : Int
  relationDocID : String
  type' : String
  tenantID : String
  tenantModel : String

/-- `SearchResult` from `types.go`: an ordered sequence of raw Documents
plus a total count supplied independently by the remote service. -/
structure SearchResult where
  results : List DefaultDocumentStructure
  count : Int

/-- `TypedSearchResult[T]` from `types.go`. -/
structure TypedSearchResult (τ : Type) where
  results : List (TypedDocumentStructure τ)
  count : Int

/-- The behaviour of Go's `encoding/json` on the caller-supplied generic
shape `τ`: `decode` is `json.Unmarshal` of (the parse tree of) a byte form
into `τ`, `encode` is `json.Marshal` of a `τ` value back to a parse tree.
Each concrete shape used by the claims instantiates this record with the
decode/encode semantics Go derives from the struct's json tags. -/
structure Codec (τ : Type) where
  decode : Json → Except String τ
  encode : τ → Json

/-- `parseExpireAt` from `client.go` (lines 758-764): converts the string
`expire_at` to an `int64`.  The source is a stub: it returns `0` for the
empty string and `0` for everything else ("Could implement actual parsing
logic here"). -/
def parseExpireAt (expireAt : String) : Int :=
  if expireAt = "" then 0 else 0

/-- `convertToTypedDocument[T]` from `client.go` (lines 717-738).
Go first runs `json.Marshal(rawDoc.Data)` and then `json.Unmarshal` of those
bytes into `T`.  `rawDoc.Data` is itself the parse tree of a JSON document
(it arrived from the transport's JSON response), so marshalling it cannot
fail and marshal-then-unmarshal is exactly `c.decode` on the tree.  On
success the remaining Document fields are copied into the typed envelope,
with `ExpireAt` passed through `parseExpireAt`. -/
def convertToTypedDocument (c : Codec τ) (rawDoc : DefaultDocumentStructure) :
    Except String (TypedDocumentStructure τ) :=
  match c.decode rawDoc.data with
  | .error e => .error ("failed to unmarshal to typed data: " ++ e)
  | .ok typedData =>
      .ok { key := rawDoc.key
            data := typedData
            meta := rawDoc.meta
            id := rawDoc.id
            expireAt := parseExpireAt rawDoc.expireAt
            relationDocID := rawDoc.relationDocID
            type' := rawDoc.type'
            tenantID := ""
            tenantModel := "" }

/-- The loop body of `convertToTypedSearchResult` (lines 747-753): convert
the documents in order, starting at index `i`; the first failure aborts the
whole conversion with an error naming the failing index. -/
def convertDocsFrom (c : Codec τ) (i : Nat) :
    List DefaultDocumentStructure → Except String (List (TypedDocumentStructure τ))
  | [] => .ok []
  | d :: rest =>
    match convertToTypedDocument c d with
    | .error e => .error ("failed to convert document at index " ++ toString i ++ ": " ++ e)
    | .ok td =>
      match convertDocsFrom c (i + 1) rest with
      | .error e => .error e
      | .ok tds => .ok (td :: tds)

/-- `convertToTypedSearchResult[T]` from `client.go` (lines 740-756):
converts every element of the raw `Results` sequence in order, preserving
the original `Count`; fails atomically on the first element that does not
convert. -/
def convertToTypedSearchResult (c : Codec τ) (rawResults : SearchResult) :
    Except String (TypedSearchResult τ) :=
  match convertDocsFrom c 0 rawResults.results with
  | .error e => .error e
  | .ok tds => .ok { results := tds, count := rawResults.count }

/-! ## Caller-supplied target shapes

The generic parameter `T` of the typed operations is chosen by the caller.
The claims exercise two concrete shapes: `Todo\x7bTitle string; Done bool\x7d`
(spec §8 end-to-end scenario 1) and `Product` (the example struct of the
repository's test file, whose `Price float64` field appears in spec §8
scenario 3).  Their codecs below implement Go's `encoding/json` struct
decoding: object keys are matched to json tags case-insensitively, later
duplicate matches overwrite earlier ones, JSON null leaves a field
untouched, unknown keys are ignored, and a type mismatch aborts with an
`UnmarshalTypeError` naming the struct field. -/

/-- The kind word Go's `UnmarshalTypeError` uses for a JSON value. -/
def jsonValueKind : Json → String
  | .null => "null"
  | .bool _ => "bool"
  | .num _ => "number"
  | .str _ => "string"
  | .arr _ => "array"
  | .obj _ => "object"

/-- The message of Go's `UnmarshalTypeError` for a mismatched struct field:
`json: cannot unmarshal <kind> into Go struct field <Struct>.<tag> of type <T>`. -/
def unmarshalFieldError (structName tag goType : String) (v : Json) : String :=
  "json: cannot unmarshal " ++ jsonValueKind v ++ " into Go struct field "
    ++ structName ++ "." ++ tag ++ " of type " ++ goType

/-- Decoding one JSON value into a Go `string` field currently holding
`cur`: null is skipped, a JSON string replaces the value, anything else is
an `UnmarshalTypeError`. -/
def decodeStringField (structName tag : String) (cur : String) (v : Json) :
    Except String String :=
  match v with
  | .null => .ok cur
  | .str s => .ok s
  | _ => .error (unmarshalFieldError structName tag "string" v)

/-- Decoding one JSON value into a Go `bool` field. -/
def decodeBoolField (structName tag : String) (cur : Bool) (v : Json) :
    Except String Bool :=
  match v with
  | .null => .ok cur
  | .bool b => .ok b
  | _ => .error (unmarshalFieldError structName tag "bool" v)

/-- Decoding one JSON value into a Go `float64` field: only JSON numbers
(and null) are accepted; in particular a JSON string is rejected. -/
def decodeFloat64Field (structName tag : String) (cur : JNumber) (v : Json) :
    Except String JNumber :=
  match v with
  | .null => .ok cur
  | .num n => .ok n
  | _ => .error (unmarshalFieldError structName tag "float64" v)

/-- `Todo\x7bTitle string; Done bool\x7d`: the target shape of spec §8
scenario 1, with json tags `title` and `done`. -/
structure Todo where
  title : String
  done : Bool
deriving DecidableEq

/-- The zero value of `Todo`, Go's starting point for `json.Unmarshal`. -/
def todoZero : Todo := { title := "", done := false }

/-- Processing one object entry while unmarshalling into `Todo`: the key is
matched against the json tags case-insensitively (the tags are lower-case,
mirroring Go's exact-then-case-insensitive field lookup); unknown keys are
ignored. -/
def decodeTodoField (acc : Todo) (key : String) (v : Json) : Except String Todo :=
  if lowerStr key = "title" then
    match decodeStringField "Todo" "title" acc.title v with
    | .error e => .error e
    | .ok s => .ok { acc with title := s }
  else if lowerStr key = "done" then
    match decodeBoolField "Todo" "done" acc.done v with
    | .error e => .error e
    | .ok b => .ok { acc with done := b }
  else .ok acc

/-- The decode loop over an object's entries, in order; the first type
mismatch aborts (Go reports the first `UnmarshalTypeError`). -/
def decodeTodoLoop : Todo → List (String × Json) → Except String Todo
  | acc, [] => .ok acc
  | acc, kv :: rest =>
    match decodeTodoField acc kv.1 kv.2 with
    | .error e => .error e
    | .ok acc' => decodeTodoLoop acc' rest

/-- `json.Unmarshal` into `Todo`: an object is decoded field by field from
the zero value, null is a no-op, any other top-level value is a type
error. -/
def decodeTodo : Json → Except String Todo
  | .obj fields => decodeTodoLoop todoZero fields
  | .null => .ok todoZero
  | v => .error ("json: cannot unmarshal " ++ jsonValueKind v
      ++ " into Go value of type goapitosdk.Todo")

/-- `json.Marshal` of a `Todo`: fields in declaration order under their
json tags. -/
def encodeTodo (t : Todo) : Json :=
  .obj [("title", .str t.title), ("done", .bool t.done)]

/-- The `encoding/json` behaviour of the `Todo` shape. -/
def todoCodec : Codec Todo := { decode := decodeTodo, encode := encodeTodo }

/-- `Product` from the repository's test file: `Name string`,
`Description string`, `Price float64`, `CategoryID string`, `InStock bool`,
`CreatedAt string`, with the json tags `name`, `description`, `price`,
`category_id`, `in_stock`, `created_at`. -/
structure Product where
  name : String
  description : String
  price : JNumber
  categoryID : String
  inStock : Bool
  createdAt : String
deriving DecidableEq

/-- The zero value of `Product`. -/
def productZero : Product :=
  { name := "", description := "", price := { mantissa := 0, exp10 := 0 },
    categoryID := "", inStock := false, createdAt := "" }

/-- Processing one object entry while unmarshalling into `Product`. -/
def decodeProductField (acc : Product) (key : String) (v : Json) :
    Except String Product :=
  if lowerStr key = "name" then
    match decodeStringField "Product" "name" acc.name v with
    | .error e => .error e
    | .ok s => .ok { acc with name := s }
  else if lowerStr key = "description" then
    match decodeStringField "Product" "description" acc.description v with
    | .error e => .error e
    | .ok s => .ok { acc with description := s }
  else if lowerStr key = "price" then
    match decodeFloat64Field "Product" "price" acc.price v with
    | .error e => .error e
    | .ok n => .ok { acc with price := n }
  else if lowerStr key = "category_id" then
    match decodeStringField "Product" "category_id" acc.categoryID v with
    | .error e => .error e
    | .ok s => .ok { acc with categoryID := s }
  else if lowerStr key = "in_stock" then
    match decodeBoolField "Product" "in_stock" acc.inStock v with
    | .error e => .error e
    | .ok b => .ok { acc with inStock := b }
  else if lowerStr key = "created_at" then
    match decodeStringField "Product" "created_at" acc.createdAt v with
    | .error e => .error e
    | .ok s => .ok { acc with createdAt := s }
  else .ok acc

/-- The decode loop over an object's entries for `Product`. -/
def decodeProductLoop : Product → List (String × Json) → Except String Product
  | acc, [] => .ok acc
  | acc, kv :: rest =>
    match decodeProductField acc kv.1 kv.2 with
    | .error e => .error e
    | .ok acc' => decodeProductLoop acc' rest

/-- `json.Unmarshal` into `Product`. -/
def decodeProduct : Json → Except String Product
  | .obj fields => decodeProductLoop productZero fields
  | .null => .ok productZero
  | v => .error ("json: cannot unmarshal " ++ jsonValueKind v
      ++ " into Go value of type goapitosdk.Product")

/-- `json.Marshal` of a `Product`. -/
def encodeProduct (p : Product) : Json :=
  .obj [("name", .str p.name), ("description", .str p.description),
        ("price", .num p.price), ("category_id", .str p.categoryID),
        ("in_stock", .bool p.inStock), ("created_at", .str p.createdAt)]

/-- The `encoding/json` behaviour of the `Product` shape. -/
def productCodec : Codec Product := { decode := decodeProduct, encode := encodeProduct }

/-! ## Transport: `executeGraphQL` response handling

`executeGraphQL` (client.go lines 568-624) sends one HTTP POST and then
inspects the response: a status other than 200 is an error carrying the
status code and raw body; otherwise the body is unmarshalled into a
`GraphQLResponse`, and a non-empty `errors` array is an error formatted
with `fmt.Errorf("GraphQL errors: %v", response.Errors)`.  The network
round trip and the JSON text parser are external collaborators, so the
embedding takes the arrived response (status code and body text) and the
parse function as inputs and models everything from the status check on. -/

/-- `GraphQLErrorLocation` from `types.go`. -/
structure GraphQLErrorLocation where
  line : Int
  column : Int

/-- `GraphQLError` from `types.go`: message, locations, path, extensions. -/
structure GraphQLError where
  message : String
  locations : List GraphQLErrorLocation
  path : List Json
  extensions : List (String × Json)

/-- `GraphQLResponse` from `types.go`: the generic `\x7bdata, errors\x7d`
envelope.  `Data` is `interface\x7b\x7d`, i.e. an arbitrary JSON value. -/
structure GraphQLResponse where
  data : Json
  errors : List GraphQLError

/-- An arrived HTTP response: parsed status code and the bytes of the body
as read by `io.ReadAll`. -/
structure HTTPResponse where
  statusCode : Nat
  body : String

/-- Go `fmt`'s space-separated joining of the elements of a slice or of the
fields of a struct under `%v`. -/
def joinSpace : List String → String
  | [] => ""
  | [x] => x
  | x :: xs => x ++ " " ++ joinSpace xs

/-- Insertion into a list of strings sorted in Go's byte-wise order;
`fmt` prints map entries sorted by key. -/
def insertSorted (s : String) : List String → List String
  | [] => [s]
  | x :: xs => if s ≤ x then s :: x :: xs else x :: insertSorted s xs

/-- Sorting a list of strings, used for the map entries printed by `%v`. -/
def sortStrings : List String → List String
  | [] => []
  | x :: xs => insertSorted x (sortStrings xs)

/-- The decimal rendering of the model's numbers.  (Go prints a `float64`
under `%v` as its shortest decimal form; the model prints the stored
mantissa and exponent.) -/
def goFmtNumber (n : JNumber) : String :=
  toString n.mantissa ++ (if n.exp10 = 0 then "" else "e" ++ toString n.exp10)

/-- Go `%v` rendering of a decoded JSON value: strings print raw, slices as
`[a b]`, maps as `map[k:v]` with keys sorted, nil as `<nil>`. -/
def goFmtValue : Json → String
  | .null => "<nil>"
  | .bool b => if b then "true" else "false"
  | .num n => goFmtNumber n
  | .str s => s
  | .arr xs => "[" ++ joinSpace (xs.attach.map (fun x => goFmtValue x.1)) ++ "]"
  | .obj fs =>
      "map[" ++ joinSpace (sortStrings (fs.attach.map
        (fun kv => kv.1.1 ++ ":" ++ goFmtValue kv.1.2))) ++ "]"
decreasing_by
  · have := List.sizeOf_lt_of_mem x.2
    simp_wf
    omega
  · obtain ⟨⟨k, v⟩, hm⟩ := kv
    have := List.sizeOf_lt_of_mem hm
    simp_wf
    simp at this
    omega

/-- Go `%v` rendering of one `GraphQLErrorLocation` struct value. -/
def goFmtLocation (l : GraphQLErrorLocation) : String :=
  "\x7b" ++ toString l.line ++ " " ++ toString l.column ++ "\x7d"

/-- Go `%v` rendering of the `Locations` slice. -/
def goFmtLocations (ls : List GraphQLErrorLocation) : String :=
  "[" ++ joinSpace (ls.map goFmtLocation) ++ "]"

/-- Go `%v` rendering of the `Path` slice. -/
def goFmtPath (vs : List Json) : String :=
  "[" ++ joinSpace (vs.map goFmtValue) ++ "]"

/-- Go `%v` rendering of the `Extensions` map, entries sorted by key. -/
def goFmtExtensions (fs : List (String × Json)) : String :=
  "map[" ++ joinSpace (sortStrings (fs.map (fun kv => kv.1 ++ ":" ++ goFmtValue kv.2))) ++ "]"

/-- Go `%v` rendering of one `GraphQLError` struct value: its four fields,
space-separated, in braces; the message prints first and verbatim. -/
def goFmtError (e : GraphQLError) : String :=
  "\x7b" ++ e.message ++ " " ++ goFmtLocations e.locations ++ " "
    ++ goFmtPath e.path ++ " " ++ goFmtExtensions e.extensions ++ "\x7d"

/-- Go `%v` rendering of the `response.Errors` slice. -/
def goFmtErrors (es : List GraphQLError) : String :=
  "[" ++ joinSpace (es.map goFmtError) ++ "]"

/-- The body-unmarshalling and errors-array steps of `executeGraphQL`
(client.go lines 614-623), after the status check has passed. -/
def handleResponseBody (body : String)
    (parse : String → Except String GraphQLResponse) : Except String GraphQLResponse :=
  match parse body with
  | .error e => .error ("failed to unmarshal GraphQL response: " ++ e)
  | .ok response =>
    if response.errors.length > 0 then
      .error ("GraphQL errors: " ++ goFmtErrors response.errors)
    else
      .ok response

/-- The response-handling tail of `executeGraphQL` (client.go lines
610-623): reject any status other than `http.StatusOK` with an error
carrying the code and body, then unmarshal the body and reject a non-empty
GraphQL `errors` array. -/
def executeGraphQLRespond (resp : HTTPResponse)
    (parse : String → Except String GraphQLResponse) : Except String GraphQLResponse :=
  if resp.statusCode ≠ 200 then
    .error ("HTTP error " ++ toString resp.statusCode ++ ": " ++ resp.body)
  else
    handleResponseBody resp.body parse

/-! ## Client construction (`NewClient`, client.go lines 548-566) -/

/-- The observable configuration of a Go `http.Client` as this SDK uses it:
its timeout, a `time.Duration` (an `int64` count of nanoseconds). -/
structure HTTPClient where
  timeout : Int
deriving DecidableEq

/-- `Config` from `client.go`: base URL, API key, timeout, optional
caller-supplied HTTP client (`nil` modelled as `none`). -/
structure Config where
  baseURL : String
  apiKey : String
  timeout : Int
  httpClient : Option HTTPClient

/-- `Client` from `client.go`. -/
structure Client where
  baseURL : String
  apiKey : String
  httpClient : HTTPClient

/-- `30 * time.Second` in nanoseconds. -/
def thirtySeconds : Int := 30 * 1000000000

/-- `NewClient` from `client.go` (lines 548-566): a zero timeout defaults
to 30 seconds; a missing HTTP client is constructed with that timeout; a
supplied HTTP client is stored as-is. -/
def newClient (config : Config) : Client :=
  let timeout := if config.timeout = 0 then thirtySeconds else config.timeout
  let httpClient :=
    match config.httpClient with
    | none => { timeout := timeout : HTTPClient }
    | some hc => hc
  { baseURL := config.baseURL, apiKey := config.apiKey, httpClient := httpClient }

/-! ## Untyped resource operations with local validation

`CreateNewResource` (client.go lines 1030-1100), `UpdateResource` (lines
1102-1185) and `GetRelationDocuments` (lines 951-1028) each build a query
and a vars map and call `executeGraphQL`; the network round trip is
abstracted as an `Exec` function so that "fails before any network round
trip" is expressible as the result being the same for every transport. -/

/-- The transport as seen by an operation: `executeGraphQL` applied to a
query string and a vars map, producing either the parsed response or
an error. -/
def Exec : Type := String → List (String × Json) → Except String GraphQLResponse

/-- Modelled from the spec: `CreateAndUpdateRequest`, the request struct of
the create/update operations.  Its definition is not among the provided
source files; the fields are taken from every use in `client.go` and the
examples, and from spec §6: id, model, payload, optional connect/disconnect
relation maps, single-page-data and force-update flags.  Go `nil` maps are
modelled as `none`. -/
structure CreateAndUpdateRequest where
  id : String
  model : String
  payload : Option (List (String × Json))
  connect : Option (List (String × Json))
  disconnect : Option (List (String × Json))
  singlePageData : Bool
  forceUpdate : Bool

/-- Decoding one JSON value into a Go `int` field: only integral JSON
numbers are accepted. -/
def decodeIntField (structName tag : String) (cur : Int) (v : Json) :
    Except String Int :=
  match v with
  | .null => .ok cur
  | .num n =>
      if 0 ≤ n.exp10 then .ok (n.mantissa * 10 ^ n.exp10.toNat)
      else .error (unmarshalFieldError structName tag "int" v)
  | _ => .error (unmarshalFieldError structName tag "int" v)

/-- Modelled from the spec: `json.Unmarshal` of one object entry into
`protobuff.MetaField` (external package; field set as selected by the
repository's queries). -/
def decodeMetaFieldEntry (acc : MetaField) (key : String) (v : Json) :
    Except String MetaField :=
  if lowerStr key = "created_at" then
    match decodeStringField "MetaField" "created_at" acc.createdAt v with
    | .error e => .error e
    | .ok s => .ok { acc with createdAt := s }
  else if lowerStr key = "updated_at" then
    match decodeStringField "MetaField" "updated_at" acc.updatedAt v with
    | .error e => .error e
    | .ok s => .ok { acc with updatedAt := s }
  else if lowerStr key = "status" then
    match decodeStringField "MetaField" "status" acc.status v with
    | .error e => .error e
    | .ok s => .ok { acc with status := s }
  else if lowerStr key = "revision" then
    match decodeIntField "MetaField" "revision" acc.revision v with
    | .error e => .error e
    | .ok n => .ok { acc with revision := n }
  else if lowerStr key = "revision_at" then
    match decodeStringField "MetaField" "revision_at" acc.revisionAt v with
    | .error e => .error e
    | .ok s => .ok { acc with revisionAt := s }
  else .ok acc

/-- The decode loop for `MetaField`. -/
def decodeMetaFieldLoop : MetaField → List (String × Json) → Except String MetaField
  | acc, [] => .ok acc
  | acc, kv :: rest =>
    match decodeMetaFieldEntry acc kv.1 kv.2 with
    | .error e => .error e
    | .ok acc' => decodeMetaFieldLoop acc' rest

/-- The zero value of `MetaField`. -/
def metaFieldZero : MetaField :=
  { createdAt := "", updatedAt := "", status := "", revision := 0, revisionAt := "" }

/-- Modelled from the spec: `json.Unmarshal` into a `*protobuff.MetaField`
pointer field: null yields a nil pointer, an object is decoded field by
field. -/
def decodeMetaField : Json → Except String (Option MetaField)
  | .null => .ok none
  | .obj fields =>
    match decodeMetaFieldLoop metaFieldZero fields with
    | .error e => .error e
    | .ok m => .ok (some m)
  | v => .error ("json: cannot unmarshal " ++ jsonValueKind v
      ++ " into Go value of type protobuff.MetaField")

/-- The zero value of `DefaultDocumentStructure`. -/
def defaultDocumentZero : DefaultDocumentStructure :=
  { key := "", data := .null, meta := none, id := "", expireAt := "",
    relationDocID := "", type' := "" }

/-- Modelled from the spec: `json.Unmarshal` of one object entry into
`shared.DefaultDocumentStructure` (external package; json tags `_key`,
`data`, `meta`, `id`, `expire_at`, `relation_doc_id`, `type`).  The `data`
field is `interface\x7b\x7d`, so any JSON value is stored unchanged. -/
def decodeDocumentEntry (acc : DefaultDocumentStructure) (key : String) (v : Json) :
    Except String DefaultDocumentStructure :=
  if lowerStr key = "_key" then
    match decodeStringField "DefaultDocumentStructure" "_key" acc.key v with
    | .error e => .error e
    | .ok s => .ok { acc with key := s }
  else if lowerStr key = "data" then
    .ok { acc with data := v }
  else if lowerStr key = "meta" then
    match decodeMetaField v with
    | .error e => .error e
    | .ok m => .ok { acc with meta := m }
  else if lowerStr key = "id" then
    match decodeStringField "DefaultDocumentStructure" "id" acc.id v with
    | .error e => .error e
    | .ok s => .ok { acc with id := s }
  else if lowerStr key = "expire_at" then
    match decodeStringField "DefaultDocumentStructure" "expire_at" acc.expireAt v with
    | .error e => .error e
    | .ok s => .ok { acc with expireAt := s }
  else if lowerStr key = "relation_doc_id" then
    match decodeStringField "DefaultDocumentStructure" "relation_doc_id" acc.relationDocID v with
    | .error e => .error e
    | .ok s => .ok { acc with relationDocID := s }
  else if lowerStr key = "type" then
    match decodeStringField "DefaultDocumentStructure" "type" acc.type' v with
    | .error e => .error e
    | .ok s => .ok { acc with type' := s }
  else .ok acc

/-- The decode loop for `DefaultDocumentStructure`. -/
def decodeDocumentLoop :
    DefaultDocumentStructure → List (String × Json) → Except String DefaultDocumentStructure
  | acc, [] => .ok acc
  | acc, kv :: rest =>
    match decodeDocumentEntry acc kv.1 kv.2 with
    | .error e => .error e
    | .ok acc' => decodeDocumentLoop acc' rest

/-- Modelled from the spec: `json.Unmarshal` into
`shared.DefaultDocumentStructure`. -/
def decodeDefaultDocument : Json → Except String DefaultDocumentStructure
  | .obj fields => decodeDocumentLoop defaultDocumentZero fields
  | .null => .ok defaultDocumentZero
  | v => .error ("json: cannot unmarshal " ++ jsonValueKind v
      ++ " into Go value of type shared.DefaultDocumentStructure")

/-- The decode loop over the elements of a `results` array. -/
def decodeDocumentList : List Json → Except String (List DefaultDocumentStructure)
  | [] => .ok []
  | v :: rest =>
    match decodeDefaultDocument v with
    | .error e => .error e
    | .ok d =>
      match decodeDocumentList rest with
      | .error e => .error e
      | .ok ds => .ok (d :: ds)

/-- `json.Unmarshal` of one object entry into `SearchResult` (json tags
`results` and `count`, from `types.go`). -/
def decodeSearchResultEntry (acc : SearchResult) (key : String) (v : Json) :
    Except String SearchResult :=
  if lowerStr key = "results" then
    match v with
    | .null => .ok acc
    | .arr elems =>
      match decodeDocumentList elems with
      | .error e => .error e
      | .ok ds => .ok { acc with results := ds }
    | _ => .error (unmarshalFieldError "SearchResult" "results" "[]*shared.DefaultDocumentStructure" v)
  else if lowerStr key = "count" then
    match decodeIntField "SearchResult" "count" acc.count v with
    | .error e => .error e
    | .ok n => .ok { acc with count := n }
  else .ok acc

/-- The decode loop for `SearchResult`. -/
def decodeSearchResultLoop : SearchResult → List (String × Json) → Except String SearchResult
  | acc, [] => .ok acc
  | acc, kv :: rest =>
    match decodeSearchResultEntry acc kv.1 kv.2 with
    | .error e => .error e
    | .ok acc' => decodeSearchResultLoop acc' rest

/-- `json.Unmarshal` into `SearchResult`. -/
def decodeSearchResult : Json → Except String SearchResult
  | .obj fields => decodeSearchResultLoop { results := [], count := 0 } fields
  | .null => .ok { results := [], count := 0 }
  | v => .error ("json: cannot unmarshal " ++ jsonValueKind v
      ++ " into Go value of type goapitosdk.SearchResult")

/-- The mutation string of `CreateNewResource` (whitespace normalized). -/
def createNewDataQuery : String :=
  "mutation CreateNewData($model: String!, $single_page_data: Boolean, $payload: JSON!, $connect: JSON) \x7b upsertModelData( connect: $connect model_name: $model single_page_data: $single_page_data payload: $payload ) \x7b id type data meta \x7b created_at updated_at status revision revision_at \x7d \x7d \x7d"

/-- The mutation string of `UpdateResource` (whitespace normalized). -/
def updateModelDataQuery : String :=
  "mutation UpdateModelData($_id: String!, $model: String!, $single_page_data: Boolean, $force_update: Boolean, $payload: JSON!, $connect: JSON, $disconnect: JSON) \x7b upsertModelData( connect: $connect model_name: $model single_page_data: $single_page_data force_update: $force_update disconnect: $disconnect _id: $_id payload: $payload ) \x7b id type data meta \x7b created_at updated_at status revision revision_at \x7d \x7d \x7d"

/-- The query string of `GetRelationDocuments` (whitespace normalized). -/
def getRelationDocumentsQuery : String :=
  "query GetModelData($model: String!, $page: Int, $limit: Int, $where: JSON, $search: String, $connection : ListAllDataDetailedOfAModelConnectionPayload) \x7b getModelData(model: $model, page: $page, limit: $limit, where: $where, search: $search, connection: $connection) \x7b results \x7b id relation_doc_id data type expire_at meta \x7b created_at updated_at status root_revision_id \x7d \x7d count \x7d \x7d"

/-- The shared response postprocessing of create/update (client.go lines
1078-1099 and 1163-1184): the envelope's `data` must be a map, the
`upsertModelData` key must be present, and its value is re-marshalled and
unmarshalled into a `shared.DefaultDocumentStructure`. -/
def extractUpsertedDocument (response : GraphQLResponse) :
    Except String DefaultDocumentStructure :=
  match response.data with
  | .obj responseData =>
    match jlookup responseData "upsertModelData" with
    | none => .error "upsertModelData not found in response"
    | some singleDataRaw =>
      match decodeDefaultDocument singleDataRaw with
      | .error e => .error ("failed to unmarshal getSingleData: " ++ e)
      | .ok document => .ok document
  | _ => .error "unexpected response format"

/-- `CreateNewResource` from `client.go` (lines 1030-1100): an empty model
or a nil payload is rejected locally, before the transport is invoked;
otherwise the vars map is built (connect only when non-nil) and the
mutation executed. -/
def createNewResource (exec : Exec) (request : CreateAndUpdateRequest) :
    Except String DefaultDocumentStructure :=
  if request.model = "" then .error "model is required"
  else
    match request.payload with
    | none => .error "payload is required"
    | some payload =>
      let vars := [("model", Json.str request.model),
                        ("payload", Json.obj payload),
                        ("single_page_data", Json.bool request.singlePageData)]
      let vars :=
        match request.connect with
        | some c => vars ++ [("connect", Json.obj c)]
        | none => vars
      match exec createNewDataQuery vars with
      | .error err => .error ("failed to create new resource: " ++ err)
      | .ok response => extractUpsertedDocument response

/-- `UpdateResource` from `client.go` (lines 1102-1185): an empty id, an
empty model or a nil payload is rejected locally, in that order, before the
transport is invoked. -/
def updateResource (exec : Exec) (request : CreateAndUpdateRequest) :
    Except String DefaultDocumentStructure :=
  if request.id = "" then .error "id is required"
  else if request.model = "" then .error "model is required"
  else
    match request.payload with
    | none => .error "payload is required"
    | some payload =>
      let vars := [("_id", Json.str request.id),
                        ("model", Json.str request.model),
                        ("payload", Json.obj payload),
                        ("single_page_data", Json.bool request.singlePageData),
                        ("force_update", Json.bool request.forceUpdate)]
      let vars :=
        match request.connect with
        | some c => vars ++ [("connect", Json.obj c)]
        | none => vars
      let vars :=
        match request.disconnect with
        | some d => vars ++ [("disconnect", Json.obj d)]
        | none => vars
      match exec updateModelDataQuery vars with
      | .error err => .error ("failed to update resource: " ++ err)
      | .ok response => extractUpsertedDocument response

/-- Copying one optional filter key from the connection's `filter` map into
the vars map (client.go lines 986-999). -/
def addFilterVar (filter : List (String × Json)) (key : String)
    (vars : List (String × Json)) : List (String × Json) :=
  match jlookup filter key with
  | some v => vars ++ [(key, v)]
  | none => vars

/-- `GetRelationDocuments` from `client.go` (lines 951-1028): the model
name is extracted from the connection map with a checked string type
assertion (`connection["model"].(string)`); a missing or non-string value
is rejected before the transport is invoked.  Optional filter parameters
are copied from `connection["filter"]` when that is a map. -/
def getRelationDocuments (exec : Exec) (_id : String)
    (connection : List (String × Json)) : Except String SearchResult :=
  let vars := [("connection", Json.obj connection)]
  match jlookup connection "model" with
  | some (Json.str model) =>
    let vars := vars ++ [("model", Json.str model)]
    let vars :=
      match jlookup connection "filter" with
      | some (Json.obj filter) =>
        addFilterVar filter "search"
          (addFilterVar filter "where"
            (addFilterVar filter "limit"
              (addFilterVar filter "page" vars)))
      | _ => vars
    match exec getRelationDocumentsQuery vars with
    | .error err => .error ("failed to get relation documents: " ++ err)
    | .ok response =>
      match response.data with
      | .obj responseData =>
        match jlookup responseData "getModelData" with
        | none => .error "getModelData not found in response"
        | some modelDataRaw =>
          match decodeSearchResult modelDataRaw with
          | .error e => .error ("failed to unmarshal getModelData: " ++ e)
          | .ok searchResult => .ok searchResult
      | _ => .error "unexpected response format"
  | _ => .error "model is required in connection parameters"

/-! ## State-threaded conversion (mutation freedom)

`convertToTypedDocument` receives a pointer to the raw document.  The
statement-by-statement translation below threads the pointed-to document
through the call explicitly: `json.Marshal(rawDoc.Data)` reads the payload,
`json.Unmarshal` writes only the fresh local `typedData`, and the final
composite literal reads the envelope fields; no statement assigns through
the pointer, so the function returns the document it was given. -/

/-- `convertToTypedDocument` with the pointed-to raw document threaded as
explicit state: the result of each invocation is the pair of the returned
value and the document as it is left after the call. -/
def convertToTypedDocumentSt (c : Codec τ) (rawDoc : DefaultDocumentStructure) :
    Except String (TypedDocumentStructure τ) × DefaultDocumentStructure :=
  let dataJSON := rawDoc.data
  match c.decode dataJSON with
  | .error e => (.error ("failed to unmarshal to typed data: " ++ e), rawDoc)
  | .ok typedData =>
      (.ok { key := rawDoc.key
             data := typedData
             meta := rawDoc.meta
             id := rawDoc.id
             expireAt := parseExpireAt rawDoc.expireAt
             relationDocID := rawDoc.relationDocID
             type' := rawDoc.type'
             tenantID := ""
             tenantModel := "" }, rawDoc)

/-! ## Theorems -/

/-- `needle` occurs verbatim inside `hay`: the error-message containment
relation used by the error-surfacing claims. -/
def containsStr (hay needle : String) : Prop :=
  ∃ pre suf : String, hay = pre ++ needle ++ suf

theorem containsStr_intro (pre needle suf : String) :
    containsStr (pre ++ needle ++ suf) needle := ⟨pre, suf, rfl⟩

theorem parseExpireAt_eq_zero (s : String) : parseExpireAt s = 0 := by
  unfold parseExpireAt
  split <;> rfl

/-- C1, counterexample: on a raw Document whose `expire_at` is the string
`"1735689600"`, conversion succeeds, but the typed envelope's expiration
field is `0` — rendered back to bytes it is `"0"`, not a verbatim copy of
the source field. -/
theorem c1_expire_not_verbatim :
    (convertToTypedDocument todoCodec
        { key := "k", data := Json.obj [], meta := none, id := "t1",
          expireAt := "1735689600", relationDocID := "r1", type' := "todo" }).map
        (fun td => toString td.expireAt) = Except.ok "0"
    ∧ ¬ ((convertToTypedDocument todoCodec
        { key := "k", data := Json.obj [], meta := none, id := "t1",
          expireAt := "1735689600", relationDocID := "r1", type' := "todo" }).map
        (fun td => toString td.expireAt) = Except.ok "1735689600") := by
  have h0 : (convertToTypedDocument todoCodec
      { key := "k", data := Json.obj [], meta := none, id := "t1",
        expireAt := "1735689600", relationDocID := "r1", type' := "todo" }).map
      (fun td => toString td.expireAt) = Except.ok "0" := rfl
  refine ⟨h0, fun h => ?_⟩
  rw [h0] at h
  have := Except.ok.inj h
  exact absurd this (by decide)

/-- C1, amended: on every successful conversion the identifier, metadata
block, relation-document id, type discriminator and partition key of the
typed envelope are copied verbatim from the raw Document; the expiration
marker is not copied but passed through `parseExpireAt`, a stub that
returns `0` for every input. -/
theorem c1_envelope_passthrough {τ : Type} (c : Codec τ)
    (raw : DefaultDocumentStructure) (td : TypedDocumentStructure τ)
    (h : convertToTypedDocument c raw = Except.ok td) :
    td.key = raw.key ∧ td.id = raw.id ∧ td.meta = raw.meta
      ∧ td.relationDocID = raw.relationDocID ∧ td.type' = raw.type'
      ∧ td.expireAt = parseExpireAt raw.expireAt ∧ td.expireAt = 0 := by
  unfold convertToTypedDocument at h
  cases hd : c.decode raw.data with
  | error e =>
      rw [hd] at h
      exact absurd h (by simp)
  | ok v =>
      rw [hd] at h
      have := Except.ok.inj h
      subst this
      exact ⟨rfl, rfl, rfl, rfl, rfl, rfl, parseExpireAt_eq_zero _⟩

/-- C1, witness: the amended envelope-passthrough theorem applied to the
document of spec §8 scenario 1. -/
theorem c1_envelope_passthrough_witness :
    ∃ td, convertToTypedDocument todoCodec
        { key := "k1", data := Json.obj [("title", Json.str "Buy milk"), ("done", Json.bool false)],
          meta := none, id := "t1", expireAt := "", relationDocID := "r1", type' := "todo" }
        = Except.ok td
      ∧ td.id = "t1" ∧ td.meta = none ∧ td.relationDocID = "r1" ∧ td.type' = "todo"
      ∧ td.expireAt = 0 := by
  have h : convertToTypedDocument todoCodec
      { key := "k1", data := Json.obj [("title", Json.str "Buy milk"), ("done", Json.bool false)],
        meta := none, id := "t1", expireAt := "", relationDocID := "r1", type' := "todo" }
      = Except.ok ⟨"k1", ⟨"Buy milk", false⟩, none, "t1", 0, "r1", "todo", "", ""⟩ := rfl
  obtain ⟨-, h2, h3, h4, h5, -, h7⟩ := c1_envelope_passthrough todoCodec _ _ h
  exact ⟨_, h, h2, h3, h4, h5, h7⟩

theorem convertDocsFrom_error (c : Codec τ) :
    ∀ (ds : List DefaultDocumentStructure) (i k : Nat) (hk : k < ds.length) (e : String),
      (∀ j (hj : j < k), ∃ td,
        convertToTypedDocument c (ds.get ⟨j, Nat.lt_trans hj hk⟩) = Except.ok td) →
      convertToTypedDocument c (ds.get ⟨k, hk⟩) = Except.error e →
      convertDocsFrom c i ds
        = Except.error ("failed to convert document at index " ++ toString (i + k) ++ ": " ++ e) := by
  intro ds
  induction ds with
  | nil =>
      intro i k hk e _ _
      simp at hk
  | cons d rest ih =>
      intro i k hk e hpre hfail
      cases k with
      | zero =>
          have h0 : convertToTypedDocument c d = Except.error e := hfail
          show (match convertToTypedDocument c d with
            | .error e => Except.error ("failed to convert document at index " ++ toString i ++ ": " ++ e)
            | .ok td =>
              match convertDocsFrom c (i + 1) rest with
              | .error e => .error e
              | .ok tds => .ok (td :: tds)) = _
          rw [h0]
          rfl
      | succ k' =>
          obtain ⟨td, htd⟩ := hpre 0 (Nat.succ_pos k')
          have hk' : k' < rest.length := by
            simp at hk
            omega
          have hpre' : ∀ j (hj : j < k'), ∃ td,
              convertToTypedDocument c (rest.get ⟨j, Nat.lt_trans hj hk'⟩) = Except.ok td := by
            intro j hj
            obtain ⟨td', htd'⟩ := hpre (j + 1) (by omega)
            exact ⟨td', htd'⟩
          have hfail' : convertToTypedDocument c (rest.get ⟨k', hk'⟩) = Except.error e := hfail
          have hrec := ih (i + 1) k' hk' e hpre' hfail'
          have htd' : convertToTypedDocument c d = Except.ok td := htd
          have hidx : i + 1 + k' = i + (k' + 1) := by omega
          rw [hidx] at hrec
          show (match convertToTypedDocument c d with
            | .error e => Except.error ("failed to convert document at index " ++ toString i ++ ": " ++ e)
            | .ok td =>
              match convertDocsFrom c (i + 1) rest with
              | .error e => .error e
              | .ok tds => .ok (td :: tds)) = _
          rw [htd', hrec]

/-- C2: if the elements of a raw search result before 0-indexed position
`k` convert and the element at `k` fails, the whole conversion fails —
returning no typed documents — with the loop's error naming index `k`, the
first failing position. -/
theorem c2_atomic_failure (c : Codec τ) (raw : SearchResult) (k : Nat)
    (hk : k < raw.results.length)
    (hpre : ∀ j (hj : j < k), ∃ td,
      convertToTypedDocument c (raw.results.get ⟨j, Nat.lt_trans hj hk⟩) = Except.ok td)
    (e : String)
    (hfail : convertToTypedDocument c (raw.results.get ⟨k, hk⟩) = Except.error e) :
    convertToTypedSearchResult c raw
      = Except.error ("failed to convert document at index " ++ toString k ++ ": " ++ e)
      ∧ containsStr ("failed to convert document at index " ++ toString k ++ ": " ++ e)
          (toString k) := by
  constructor
  · unfold convertToTypedSearchResult
    have h := convertDocsFrom_error c raw.results 0 k hk e hpre hfail
    rw [Nat.zero_add] at h
    rw [h]
  · exact ⟨"failed to convert document at index ", ": " ++ e, by
      simp [String.append_assoc]⟩

/-- C2, witness: a two-element search result whose second element's `title`
is a JSON number fails as a whole with an error naming index 1. -/
theorem c2_atomic_failure_witness :
    convertToTypedSearchResult todoCodec
      { results := [⟨"", Json.obj [("title", Json.str "a")], none, "d0", "", "", "todo"⟩,
                    ⟨"", Json.obj [("title", Json.num ⟨7, 0⟩)], none, "d1", "", "", "todo"⟩],
        count := 5 }
      = Except.error "failed to convert document at index 1: failed to unmarshal to typed data: json: cannot unmarshal number into Go struct field Todo.title of type string" := by
  have h := (c2_atomic_failure todoCodec
    { results := [⟨"", Json.obj [("title", Json.str "a")], none, "d0", "", "", "todo"⟩,
                  ⟨"", Json.obj [("title", Json.num ⟨7, 0⟩)], none, "d1", "", "", "todo"⟩],
      count := 5 } 1 (by simp)
    (fun j hj => by
      match j, hj with
      | 0, _ => exact ⟨⟨"", ⟨"a", false⟩, none, "d0", 0, "", "todo", "", ""⟩, rfl⟩)
    "failed to unmarshal to typed data: json: cannot unmarshal number into Go struct field Todo.title of type string"
    rfl).1
  exact h

theorem convertDocsFrom_ok (c : Codec τ) :
    ∀ (ds : List DefaultDocumentStructure) (i : Nat),
      (∀ d ∈ ds, ∃ td, convertToTypedDocument c d = Except.ok td) →
      ∃ tds, convertDocsFrom c i ds = Except.ok tds
        ∧ tds.length = ds.length
        ∧ ∀ j (hj : j < ds.length) (hj' : j < tds.length),
            convertToTypedDocument c (ds.get ⟨j, hj⟩) = Except.ok (tds.get ⟨j, hj'⟩) := by
  intro ds
  induction ds with
  | nil =>
      intro i _
      exact ⟨[], rfl, rfl, fun j hj => by simp at hj⟩
  | cons d rest ih =>
      intro i h
      obtain ⟨td, htd⟩ := h d (List.mem_cons_self d rest)
      obtain ⟨tds, h1, h2, h3⟩ := ih (i + 1) (fun d' hd' => h d' (List.mem_cons_of_mem d hd'))
      refine ⟨td :: tds, ?_, by simp [h2], ?_⟩
      · show (match convertToTypedDocument c d with
          | .error e => Except.error ("failed to convert document at index " ++ toString i ++ ": " ++ e)
          | .ok td =>
            match convertDocsFrom c (i + 1) rest with
            | .error e => .error e
            | .ok tds => .ok (td :: tds)) = _
        rw [htd, h1]
      · intro j hj hj'
        cases j with
        | zero => exact htd
        | succ j' =>
            have hj2 : j' < rest.length := by simp at hj; omega
            have hj2' : j' < tds.length := by simp at hj'; omega
            exact h3 j' hj2 hj2'

/-- C3: when every document of a raw search result converts, the typed
result holds exactly as many typed documents, in the same positions, and
its `Count` is the raw `Count` unchanged — even when that count differs
from the number of documents, since the two are never cross-validated. -/
theorem c3_order_preservation (c : Codec τ) (raw : SearchResult)
    (h : ∀ d ∈ raw.results, ∃ td, convertToTypedDocument c d = Except.ok td) :
    ∃ tr, convertToTypedSearchResult c raw = Except.ok tr
      ∧ tr.count = raw.count
      ∧ tr.results.length = raw.results.length
      ∧ ∀ j (hj : j < raw.results.length) (hj' : j < tr.results.length),
          convertToTypedDocument c (raw.results.get ⟨j, hj⟩) = Except.ok (tr.results.get ⟨j, hj'⟩) := by
  obtain ⟨tds, h1, h2, h3⟩ := convertDocsFrom_ok c raw.results 0 h
  refine ⟨{ results := tds, count := raw.count }, ?_, rfl, h2, h3⟩
  unfold convertToTypedSearchResult
  rw [h1]

/-- C3, witness: spec §8 scenario 2 — a raw result with `Count = 2` but a
single document converts successfully to a typed result with `Count = 2`
and one typed document (mismatch passed through). -/
theorem c3_order_preservation_witness :
    ∃ tr, convertToTypedSearchResult todoCodec
        { results := [⟨"", Json.obj [("title", Json.str "a")], none, "d0", "", "", "todo"⟩],
          count := 2 }
        = Except.ok tr
      ∧ tr.count = 2 ∧ tr.results.length = 1 := by
  obtain ⟨tr, h1, h2, h3, -⟩ := c3_order_preservation todoCodec
    { results := [⟨"", Json.obj [("title", Json.str "a")], none, "d0", "", "", "todo"⟩],
      count := 2 }
    (fun d hd => by
      simp at hd
      subst hd
      exact ⟨⟨"", ⟨"a", false⟩, none, "d0", 0, "", "todo", "", ""⟩, rfl⟩)
  refine ⟨tr, h1, h2, ?_⟩
  simpa using h3

/-- C4: a raw Document whose payload does not deserialize into the target
shape makes `convertToTypedDocument` return the wrapped conversion error
and no typed document; in particular the payload
`\x7b"price":"twenty"\x7d` against `Product` fails with an error naming
the `price` field. -/
theorem c4_conversion_error :
    (∀ {τ : Type} (c : Codec τ) (raw : DefaultDocumentStructure) (e : String),
        c.decode raw.data = Except.error e →
        convertToTypedDocument c raw
          = Except.error ("failed to unmarshal to typed data: " ++ e))
    ∧ (∀ raw : DefaultDocumentStructure,
        raw.data = Json.obj [("price", Json.str "twenty")] →
        ∃ msg, convertToTypedDocument productCodec raw = Except.error msg
          ∧ containsStr msg "price") := by
  constructor
  · intro τ c raw e h
    unfold convertToTypedDocument
    rw [h]
  · intro raw hd
    have hdec : productCodec.decode raw.data
        = Except.error "json: cannot unmarshal string into Go struct field Product.price of type float64" := by
      rw [hd]
      rfl
    refine ⟨"failed to unmarshal to typed data: json: cannot unmarshal string into Go struct field Product.price of type float64", ?_, ?_⟩
    · unfold convertToTypedDocument
      rw [hdec]
      rfl
    · exact ⟨"failed to unmarshal to typed data: json: cannot unmarshal string into Go struct field Product.", " of type float64", by decide⟩

/-- C4, witness: a non-object payload fails to unmarshal into `Todo`, and
spec §8 scenario 3 fails with an error containing `price`. -/
theorem c4_conversion_error_witness :
    convertToTypedDocument todoCodec ⟨"", Json.str "notanobject", none, "x", "", "", "t"⟩
      = Except.error ("failed to unmarshal to typed data: "
          ++ "json: cannot unmarshal string into Go value of type goapitosdk.Todo")
    ∧ ∃ msg, convertToTypedDocument productCodec
        ⟨"", Json.obj [("price", Json.str "twenty")], none, "p1", "", "", "product"⟩
        = Except.error msg ∧ containsStr msg "price" := by
  constructor
  · exact c4_conversion_error.1 todoCodec _ _ rfl
  · exact c4_conversion_error.2 _ rfl

theorem jlookup_cons (kv : String × Json) (rest : List (String × Json)) (key : String) :
    jlookup (kv :: rest) key = if kv.1 = key then some kv.2 else jlookup rest key := rfl

theorem findLower_cons (kv : String × Json) (rest : List (String × Json)) (tag : String) :
    findLower (kv :: rest) tag
      = if lowerStr kv.1 = tag then some kv.2 else findLower rest tag := rfl

theorem decodeTodoLoop_cons (acc : Todo) (kv : String × Json) (rest : List (String × Json)) :
    decodeTodoLoop acc (kv :: rest)
      = match decodeTodoField acc kv.1 kv.2 with
        | .error e => Except.error e
        | .ok acc' => decodeTodoLoop acc' rest := rfl

theorem jlookup_mem (ps : List (String × Json)) (key : String) (v : Json)
    (h : jlookup ps key = some v) : ∃ kv ∈ ps, kv.1 = key ∧ kv.2 = v := by
  induction ps with
  | nil => simp [jlookup] at h
  | cons kv0 rest ih =>
      rw [jlookup_cons] at h
      by_cases h0 : kv0.1 = key
      · rw [if_pos h0] at h
        exact ⟨kv0, List.mem_cons_self kv0 rest, h0, Option.some.inj h⟩
      · rw [if_neg h0] at h
        obtain ⟨kv, hmem, hkey, hv⟩ := ih h
        exact ⟨kv, List.mem_cons_of_mem kv0 hmem, hkey, hv⟩

theorem findLower_eq_none (ps : List (String × Json)) (tag : String)
    (h : ∀ kv ∈ ps, lowerStr kv.1 ≠ tag) : findLower ps tag = none := by
  induction ps with
  | nil => rfl
  | cons kv0 rest ih =>
      rw [findLower_cons, if_neg (h kv0 (List.mem_cons_self kv0 rest))]
      exact ih (fun kv' h' => h kv' (List.mem_cons_of_mem kv0 h'))

theorem findLower_unique (ps : List (String × Json)) (tag : String) (v : Json)
    (hnd : (ps.map fun kv => lowerStr kv.1).Nodup)
    (hf : findLower ps tag = some v) :
    ∀ kv ∈ ps, lowerStr kv.1 = tag → kv.2 = v := by
  induction ps with
  | nil => intro kv h; simp at h
  | cons kv0 rest ih =>
      intro kv hmem htag
      simp only [List.map_cons, List.nodup_cons] at hnd
      rw [findLower_cons] at hf
      by_cases h0 : lowerStr kv0.1 = tag
      · rw [if_pos h0] at hf
        rcases List.mem_cons.mp hmem with heq | hmem'
        · rw [heq]
          exact Option.some.inj hf
        · exfalso
          apply hnd.1
          rw [h0, ← htag]
          exact List.mem_map.mpr ⟨kv, hmem', rfl⟩
      · rw [if_neg h0] at hf
        rcases List.mem_cons.mp hmem with heq | hmem'
        · exact absurd (heq ▸ htag) h0
        · exact ih hnd.2 hf kv hmem' htag

theorem findLower_of_jlookup (ps : List (String × Json)) (tag : String) (v : Json)
    (hnd : (ps.map fun kv => lowerStr kv.1).Nodup)
    (htag : lowerStr tag = tag)
    (hl : jlookup ps tag = some v) : findLower ps tag = some v := by
  induction ps with
  | nil => simp [jlookup] at hl
  | cons kv0 rest ih =>
      simp only [List.map_cons, List.nodup_cons] at hnd
      rw [jlookup_cons] at hl
      rw [findLower_cons]
      by_cases h0 : kv0.1 = tag
      · rw [if_pos h0] at hl
        rw [if_pos (by rw [h0, htag])]
        exact congrArg some (Option.some.inj hl)
      · rw [if_neg h0] at hl
        have h1 : lowerStr kv0.1 ≠ tag := by
          intro hcontra
          obtain ⟨kv, hmem, hkey, -⟩ := jlookup_mem rest tag v hl
          apply hnd.1
          rw [hcontra, ← htag, ← hkey]
          exact List.mem_map.mpr ⟨kv, hmem, rfl⟩
        rw [if_neg h1]
        exact ih hnd.2 hl

theorem decodeTodoLoop_char :
    ∀ (ps : List (String × Json)) (acc : Todo),
      (ps.map fun kv => lowerStr kv.1).Nodup →
      (∀ kv ∈ ps, lowerStr kv.1 = "title" → ∃ s, kv.2 = Json.str s) →
      (∀ kv ∈ ps, lowerStr kv.1 = "done" → ∃ b, kv.2 = Json.bool b) →
      decodeTodoLoop acc ps = Except.ok
        { title := match findLower ps "title" with
                   | some (Json.str s) => s
                   | _ => acc.title,
          done := match findLower ps "done" with
                  | some (Json.bool b) => b
                  | _ => acc.done } := by
  intro ps
  induction ps with
  | nil =>
      intro acc _ _ _
      rfl
  | cons kv0 rest ih =>
      intro acc hnd htitle hdone
      simp only [List.map_cons, List.nodup_cons] at hnd
      have hrest : ∀ tag, lowerStr kv0.1 = tag → findLower rest tag = none := by
        intro tag h0
        apply findLower_eq_none
        intro kv hmem hcontra
        apply hnd.1
        rw [h0, ← hcontra]
        exact List.mem_map.mpr ⟨kv, hmem, rfl⟩
      by_cases h0 : lowerStr kv0.1 = "title"
      · obtain ⟨s, hv⟩ := htitle kv0 (List.mem_cons_self kv0 rest) h0
        have hstep : decodeTodoField acc kv0.1 kv0.2 = Except.ok { acc with title := s } := by
          unfold decodeTodoField
          rw [if_pos h0, hv]
          rfl
        have hloop : decodeTodoLoop acc (kv0 :: rest)
            = decodeTodoLoop { acc with title := s } rest := by
          rw [decodeTodoLoop_cons, hstep]
        rw [hloop, ih { acc with title := s } hnd.2
          (fun kv h ht => htitle kv (List.mem_cons_of_mem kv0 h) ht)
          (fun kv h hd => hdone kv (List.mem_cons_of_mem kv0 h) hd)]
        have hfT : findLower (kv0 :: rest) "title" = some (Json.str s) := by
          rw [findLower_cons, if_pos h0, hv]
        have hfTr : findLower rest "title" = none := hrest "title" h0
        have hfD : findLower (kv0 :: rest) "done" = findLower rest "done" := by
          rw [findLower_cons, if_neg (by rw [h0]; decide)]
        rw [hfT, hfTr, hfD]
      · by_cases h1 : lowerStr kv0.1 = "done"
        · obtain ⟨b, hv⟩ := hdone kv0 (List.mem_cons_self kv0 rest) h1
          have hstep : decodeTodoField acc kv0.1 kv0.2 = Except.ok { acc with done := b } := by
            unfold decodeTodoField
            rw [if_neg h0, if_pos h1, hv]
            rfl
          have hloop : decodeTodoLoop acc (kv0 :: rest)
              = decodeTodoLoop { acc with done := b } rest := by
            rw [decodeTodoLoop_cons, hstep]
          rw [hloop, ih { acc with done := b } hnd.2
            (fun kv h ht => htitle kv (List.mem_cons_of_mem kv0 h) ht)
            (fun kv h hd => hdone kv (List.mem_cons_of_mem kv0 h) hd)]
          have hfD : findLower (kv0 :: rest) "done" = some (Json.bool b) := by
            rw [findLower_cons, if_pos h1, hv]
          have hfDr : findLower rest "done" = none := hrest "done" h1
          have hfT : findLower (kv0 :: rest) "title" = findLower rest "title" := by
            rw [findLower_cons, if_neg (by rw [h1]; decide)]
          rw [hfD, hfDr, hfT]
        · have hstep : decodeTodoField acc kv0.1 kv0.2 = Except.ok acc := by
            unfold decodeTodoField
            rw [if_neg h0, if_neg h1]
          have hloop : decodeTodoLoop acc (kv0 :: rest) = decodeTodoLoop acc rest := by
            rw [decodeTodoLoop_cons, hstep]
          rw [hloop, ih acc hnd.2
            (fun kv h ht => htitle kv (List.mem_cons_of_mem kv0 h) ht)
            (fun kv h hd => hdone kv (List.mem_cons_of_mem kv0 h) hd)]
          have hfT : findLower (kv0 :: rest) "title" = findLower rest "title" := by
            rw [findLower_cons, if_neg h0]
          have hfD : findLower (kv0 :: rest) "done" = findLower rest "done" := by
            rw [findLower_cons, if_neg h1]
          rw [hfT, hfD]

theorem decodeTodoLoop_skip :
    ∀ (ps : List (String × Json)) (acc : Todo),
      (∀ kv ∈ ps, lowerStr kv.1 ≠ "title" ∧ lowerStr kv.1 ≠ "done") →
      decodeTodoLoop acc ps = Except.ok acc := by
  intro ps
  induction ps with
  | nil => intro acc _; rfl
  | cons kv0 rest ih =>
      intro acc h
      have h0 := h kv0 (List.mem_cons_self kv0 rest)
      have hstep : decodeTodoField acc kv0.1 kv0.2 = Except.ok acc := by
        unfold decodeTodoField
        rw [if_neg h0.1, if_neg h0.2]
      have hloop : decodeTodoLoop acc (kv0 :: rest) = decodeTodoLoop acc rest := by
        rw [decodeTodoLoop_cons, hstep]
      rw [hloop]
      exact ih acc (fun kv hmem => h kv (List.mem_cons_of_mem kv0 hmem))

/-- C5: converting a payload that matches `Todo` field-for-field (each tag
bound once, with a value of the field's type, under Go-map key lookup) and
re-serializing the typed payload yields exactly the original payload
restricted to the fields of `Todo`, with extra payload fields dropped; and
a payload binding none of the fields of `Todo` yields the zero value of
`Todo` for every absent field. -/
theorem c5_round_trip :
    (∀ (rawDoc : DefaultDocumentStructure) (ps : List (String × Json)) (t : String) (d : Bool),
        rawDoc.data = Json.obj ps →
        (ps.map fun kv => lowerStr kv.1).Nodup →
        jlookup ps "title" = some (Json.str t) →
        jlookup ps "done" = some (Json.bool d) →
        (convertToTypedDocument todoCodec rawDoc).map (fun td => todoCodec.encode td.data)
            = Except.ok (Json.obj [("title", Json.str t), ("done", Json.bool d)])
          ∧ jlookup [("title", Json.str t), ("done", Json.bool d)] "title" = jlookup ps "title"
          ∧ jlookup [("title", Json.str t), ("done", Json.bool d)] "done" = jlookup ps "done")
    ∧ (∀ (rawDoc : DefaultDocumentStructure) (ps : List (String × Json)),
        rawDoc.data = Json.obj ps →
        (∀ kv ∈ ps, lowerStr kv.1 ≠ "title" ∧ lowerStr kv.1 ≠ "done") →
        (convertToTypedDocument todoCodec rawDoc).map (fun td => td.data)
          = Except.ok todoZero) := by
  constructor
  · intro rawDoc ps t d hdata hnd hT hD
    have hfT : findLower ps "title" = some (Json.str t) :=
      findLower_of_jlookup ps "title" (Json.str t) hnd (by decide) hT
    have hfD : findLower ps "done" = some (Json.bool d) :=
      findLower_of_jlookup ps "done" (Json.bool d) hnd (by decide) hD
    have htitle : ∀ kv ∈ ps, lowerStr kv.1 = "title" → ∃ s, kv.2 = Json.str s :=
      fun kv h ht => ⟨t, findLower_unique ps "title" (Json.str t) hnd hfT kv h ht⟩
    have hdone : ∀ kv ∈ ps, lowerStr kv.1 = "done" → ∃ b, kv.2 = Json.bool b :=
      fun kv h hd => ⟨d, findLower_unique ps "done" (Json.bool d) hnd hfD kv h hd⟩
    have hchar := decodeTodoLoop_char ps todoZero hnd htitle hdone
    rw [hfT, hfD] at hchar
    have hdec : todoCodec.decode rawDoc.data = Except.ok ⟨t, d⟩ := by
      rw [hdata]
      exact hchar
    refine ⟨?_, ?_, ?_⟩
    · unfold convertToTypedDocument
      rw [hdec]
      rfl
    · rw [hT]
      rfl
    · rw [hD]
      rfl
  · intro rawDoc ps hdata hnone
    have hdec : todoCodec.decode rawDoc.data = Except.ok todoZero := by
      rw [hdata]
      exact decodeTodoLoop_skip ps todoZero hnone
    unfold convertToTypedDocument
    rw [hdec]
    rfl

/-- C5, witness: the round-trip theorem applied to a scrambled payload with
an extra field, and the default-value theorem applied to a payload binding
no field of `Todo`. -/
theorem c5_round_trip_witness :
    (convertToTypedDocument todoCodec
        ⟨"", Json.obj [("done", Json.bool true), ("title", Json.str "Buy milk"),
          ("extra", Json.num ⟨3, 0⟩)], none, "t1", "", "", "todo"⟩).map
        (fun td => todoCodec.encode td.data)
      = Except.ok (Json.obj [("title", Json.str "Buy milk"), ("done", Json.bool true)])
    ∧ (convertToTypedDocument todoCodec
        ⟨"", Json.obj [("other", Json.str "x")], none, "t2", "", "", "todo"⟩).map
        (fun td => td.data)
      = Except.ok todoZero := by
  constructor
  · exact (c5_round_trip.1
      ⟨"", Json.obj [("done", Json.bool true), ("title", Json.str "Buy milk"),
        ("extra", Json.num ⟨3, 0⟩)], none, "t1", "", "", "todo"⟩
      [("done", Json.bool true), ("title", Json.str "Buy milk"), ("extra", Json.num ⟨3, 0⟩)]
      "Buy milk" true rfl (by decide) rfl rfl).1
  · exact c5_round_trip.2
      ⟨"", Json.obj [("other", Json.str "x")], none, "t2", "", "", "todo"⟩
      [("other", Json.str "x")] rfl (by decide)

theorem joinSpace_cons_exists (x : String) (xs : List String) :
    ∃ t, joinSpace (x :: xs) = x ++ t := by
  cases xs with
  | nil => exact ⟨"", by simp [joinSpace]⟩
  | cons y t =>
      refine ⟨" " ++ joinSpace (y :: t), ?_⟩
      rw [← String.append_assoc]
      rfl

/-- C6: an HTTP 200 response whose decoded GraphQL `errors` array is
non-empty makes `executeGraphQL` fail — even when `data` is also present —
with a remote logic error whose message contains the first error's text. -/
theorem c6_graphql_errors (resp : HTTPResponse)
    (parse : String → Except String GraphQLResponse) (r : GraphQLResponse)
    (e0 : GraphQLError) (rest : List GraphQLError)
    (hstatus : resp.statusCode = 200)
    (hparse : parse resp.body = Except.ok r)
    (herrs : r.errors = e0 :: rest) :
    ∃ msg, executeGraphQLRespond resp parse = Except.error msg
      ∧ containsStr msg e0.message := by
  refine ⟨"GraphQL errors: " ++ goFmtErrors (e0 :: rest), ?_, ?_⟩
  · unfold executeGraphQLRespond handleResponseBody
    simp only [hstatus, hparse, herrs]
    simp
  · obtain ⟨t, ht⟩ := joinSpace_cons_exists (goFmtError e0) (rest.map goFmtError)
    refine ⟨"GraphQL errors: " ++ ("[" ++ "\x7b"),
      ((" " ++ goFmtLocations e0.locations ++ " " ++ goFmtPath e0.path ++ " "
        ++ goFmtExtensions e0.extensions ++ "\x7d" ++ t) ++ "]"), ?_⟩
    unfold goFmtErrors
    rw [List.map_cons, ht]
    unfold goFmtError
    simp only [String.append_assoc]

/-- C6, witness: spec §8 scenario 4 — a 200 response whose errors array
holds `Field not found` fails with a message containing that text. -/
theorem c6_graphql_errors_witness :
    ∃ msg, executeGraphQLRespond ⟨200, "rawbody"⟩
        (fun _ => Except.ok ⟨Json.null, [⟨"Field not found", [], [], []⟩]⟩)
        = Except.error msg
      ∧ containsStr msg "Field not found" :=
  c6_graphql_errors ⟨200, "rawbody"⟩
    (fun _ => Except.ok ⟨Json.null, [⟨"Field not found", [], [], []⟩]⟩)
    ⟨Json.null, [⟨"Field not found", [], [], []⟩]⟩
    ⟨"Field not found", [], [], []⟩ [] rfl rfl rfl

/-- C7: a non-2xx HTTP response makes `executeGraphQL` fail with a
transport error whose message contains the status code; the status check is
passed exactly by status 200 (the only status the transport treats as
success), every other status — 2xx or not — yielding the HTTP error. -/
theorem c7_http_status (resp : HTTPResponse)
    (parse : String → Except String GraphQLResponse) :
    (¬ (200 ≤ resp.statusCode ∧ resp.statusCode ≤ 299) →
      ∃ msg, executeGraphQLRespond resp parse = Except.error msg
        ∧ containsStr msg (toString resp.statusCode))
    ∧ (resp.statusCode = 200 →
        executeGraphQLRespond resp parse = handleResponseBody resp.body parse)
    ∧ (resp.statusCode ≠ 200 →
        executeGraphQLRespond resp parse
          = Except.error ("HTTP error " ++ toString resp.statusCode ++ ": " ++ resp.body)) := by
  have herr : resp.statusCode ≠ 200 →
      executeGraphQLRespond resp parse
        = Except.error ("HTTP error " ++ toString resp.statusCode ++ ": " ++ resp.body) := by
    intro h
    unfold executeGraphQLRespond
    rw [if_pos h]
  refine ⟨?_, ?_, herr⟩
  · intro h
    have h200 : resp.statusCode ≠ 200 := by omega
    refine ⟨"HTTP error " ++ toString resp.statusCode ++ ": " ++ resp.body, herr h200,
      "HTTP error ", ": " ++ resp.body, ?_⟩
    simp only [String.append_assoc]
  · intro h
    unfold executeGraphQLRespond
    rw [if_neg (by omega)]

/-- C7, witness: an HTTP 500 response fails with a message containing
`500`, and status 201 (a 2xx status other than 200) is also rejected. -/
theorem c7_http_status_witness :
    (∃ msg, executeGraphQLRespond ⟨500, "Internal Server Error"⟩
        (fun _ => Except.error "unused") = Except.error msg
      ∧ containsStr msg "500")
    ∧ executeGraphQLRespond ⟨201, "Created"⟩ (fun _ => Except.error "unused")
        = Except.error ("HTTP error " ++ toString (201 : Nat) ++ ": " ++ "Created") := by
  constructor
  · exact (c7_http_status ⟨500, "Internal Server Error"⟩ (fun _ => Except.error "unused")).1
      (by decide)
  · exact (c7_http_status ⟨201, "Created"⟩ (fun _ => Except.error "unused")).2.2 (by decide)

/-- C8: `convertToTypedDocument` is a pure function of its input: the
state-threaded translation leaves the pointed-to raw Document (payload and
metadata included) exactly as it was, and its returned value coincides with
the pure conversion function, so equal inputs always produce equal
results. -/
theorem c8_pure_conversion {τ : Type} (c : Codec τ) (rawDoc : DefaultDocumentStructure) :
    (convertToTypedDocumentSt c rawDoc).2 = rawDoc
    ∧ (convertToTypedDocumentSt c rawDoc).1 = convertToTypedDocument c rawDoc := by
  unfold convertToTypedDocumentSt convertToTypedDocument
  cases h : c.decode rawDoc.data <;> simp [h]

/-- C9: the mutation and relation operations validate their inputs locally
and fail with the same error for every transport, i.e. before any network
round trip: create requires a model and a payload; update requires an id, a
model and a payload, in that order; the relation query requires a
string-valued `model` key in the connection map. -/
theorem c9_local_validation :
    (∀ (exec : Exec) (request : CreateAndUpdateRequest),
        (request.model = "" →
          createNewResource exec request = Except.error "model is required")
      ∧ (request.model ≠ "" → request.payload = none →
          createNewResource exec request = Except.error "payload is required"))
    ∧ (∀ (exec : Exec) (request : CreateAndUpdateRequest),
        (request.id = "" →
          updateResource exec request = Except.error "id is required")
      ∧ (request.id ≠ "" → request.model = "" →
          updateResource exec request = Except.error "model is required")
      ∧ (request.id ≠ "" → request.model ≠ "" → request.payload = none →
          updateResource exec request = Except.error "payload is required"))
    ∧ (∀ (exec : Exec) (_id : String) (connection : List (String × Json)),
        (¬ ∃ s, jlookup connection "model" = some (Json.str s)) →
        getRelationDocuments exec _id connection
          = Except.error "model is required in connection parameters") := by
  refine ⟨fun exec request => ⟨?_, ?_⟩, fun exec request => ⟨?_, ?_, ?_⟩, ?_⟩
  · intro hm
    unfold createNewResource
    rw [if_pos hm]
  · intro hm hp
    unfold createNewResource
    rw [if_neg hm, hp]
  · intro hi
    unfold updateResource
    rw [if_pos hi]
  · intro hi hm
    unfold updateResource
    rw [if_neg hi, if_pos hm]
  · intro hi hm hp
    unfold updateResource
    rw [if_neg hi, if_neg hm, hp]
  · intro exec _id connection hno
    unfold getRelationDocuments
    cases hm : jlookup connection "model" with
    | none => rfl
    | some v =>
        cases v with
        | str s => exact absurd ⟨s, hm⟩ hno
        | null => rfl
        | bool b => rfl
        | num n => rfl
        | arr xs => rfl
        | obj fs => rfl

/-- C9, witness: the validation theorem applied to concrete invalid
requests with a concrete transport. -/
theorem c9_local_validation_witness :
    createNewResource (fun _ _ => Except.ok ⟨Json.null, []⟩)
        ⟨"", "", some [], none, none, false, false⟩ = Except.error "model is required"
    ∧ createNewResource (fun _ _ => Except.ok ⟨Json.null, []⟩)
        ⟨"", "todos", none, none, none, false, false⟩ = Except.error "payload is required"
    ∧ updateResource (fun _ _ => Except.ok ⟨Json.null, []⟩)
        ⟨"", "todos", some [], none, none, false, false⟩ = Except.error "id is required"
    ∧ updateResource (fun _ _ => Except.ok ⟨Json.null, []⟩)
        ⟨"t1", "todos", none, none, none, false, false⟩ = Except.error "payload is required"
    ∧ getRelationDocuments (fun _ _ => Except.ok ⟨Json.null, []⟩) "t1"
        [("model", Json.num ⟨1, 0⟩)] = Except.error "model is required in connection parameters" := by
  refine ⟨?_, ?_, ?_, ?_, ?_⟩
  · exact (c9_local_validation.1 _ _).1 rfl
  · exact (c9_local_validation.1 _ _).2 (by decide) rfl
  · exact (c9_local_validation.2.1 _ _).1 rfl
  · exact (c9_local_validation.2.1 _ _).2.2 (by decide) (by decide) rfl
  · refine c9_local_validation.2.2 _ "t1" [("model", Json.num ⟨1, 0⟩)] ?_
    rintro ⟨s, h⟩
    rw [jlookup_cons, if_pos rfl] at h
    exact absurd (Option.some.inj h) (by intro hc; cases hc)

/-- C10: `NewClient` always yields a client, copying base URL and API key;
with no caller-supplied HTTP client it builds one whose timeout is the
configured timeout, defaulting to 30 seconds when that is zero; a
caller-supplied HTTP client is stored as-is, the configured timeout being
ignored. -/
theorem c10_new_client (config : Config) :
    (newClient config).baseURL = config.baseURL
    ∧ (newClient config).apiKey = config.apiKey
    ∧ (config.httpClient = none →
        (newClient config).httpClient
          = ⟨if config.timeout = 0 then thirtySeconds else config.timeout⟩)
    ∧ (∀ hc, config.httpClient = some hc → (newClient config).httpClient = hc) := by
  refine ⟨rfl, rfl, ?_, ?_⟩
  · intro h
    simp [newClient, h]
  · intro hc h
    simp [newClient, h]

/-- C10, witness: the construction theorem at a zero timeout without a
client, a non-zero timeout without a client, and a supplied client. -/
theorem c10_new_client_witness :
    (newClient ⟨"https://api.apito.io/graphql", "key", 0, none⟩).httpClient = ⟨thirtySeconds⟩
    ∧ (newClient ⟨"https://api.apito.io/graphql", "key", 7, none⟩).httpClient = ⟨7⟩
    ∧ (newClient ⟨"https://api.apito.io/graphql", "key", 7, some ⟨5⟩⟩).httpClient = ⟨5⟩ := by
  refine ⟨?_, ?_, ?_⟩
  · have h := (c10_new_client ⟨"https://api.apito.io/graphql", "key", 0, none⟩).2.2.1 rfl
    simpa using h
  · have h := (c10_new_client ⟨"https://api.apito.io/graphql", "key", 7, none⟩).2.2.1 rfl
    simpa using h
  · exact (c10_new_client ⟨"https://api.apito.io/graphql", "key", 7, some ⟨5⟩⟩).2.2.2 ⟨5⟩ rfl

end Apito
